import Mathlib

/-!
Shallow embedding of the `ml-courses` simulation modules
(`src/ml_courses/sim/monte_carlo_tips.py` and
`src/ml_courses/sim/linear_regression_sse_viz.py`) together with proofs of
the behavioural claims about them.

Real-valued quantities are modelled as rationals (`ℚ`); numpy arrays as
`List ℚ`; the random number generator is an injectable stream of deviates;
Python exceptions are modelled with `Except String`.
-/

namespace MLCourses

/-- Embedding of `MonteCarloTipsSimulation.calculate_loss`: the sum of squared
errors `Σ (y_i - (b1 + b2 * x_i))^2` over the dataset, computed elementwise
over the two parallel lists exactly as the numpy expression
`np.sum((y - (b1 + b2 * x))**2)` does.  The square `d**2` is written `d * d`
so that the definition evaluates by kernel reduction. -/
def calculate_loss (b1 b2 : ℚ) (x y : List ℚ) : ℚ :=
  (List.zipWith (fun xi yi => (yi - (b1 + b2 * xi)) * (yi - (b1 + b2 * xi))) x y).sum

/-- Embedding of `np.clip(v, lo, hi)`: clamp `v` into `[lo, hi]`
(the maximum bound is applied last, as numpy does). -/
def clip (v lo hi : ℚ) : ℚ := min (max v lo) hi

/-- Mutable loop state of `run_simulation`: current parameters, current loss,
the accepted-step counter and the three trajectory lists. -/
structure SimState where
  b1 : ℚ
  b2 : ℚ
  loss : ℚ
  n_accepted : ℕ
  b1_samples : List ℚ
  b2_samples : List ℚ
  loss_samples : List ℚ
  deriving DecidableEq, Repr

/-- State of `run_simulation` just before the sampling loop: parameters are the
initial guesses, the loss is evaluated there, and each trajectory holds the
single initial entry. -/
def initState (x y : List ℚ) (b1_init b2_init : ℚ) : SimState :=
  { b1 := b1_init
    b2 := b2_init
    loss := calculate_loss b1_init b2_init x y
    n_accepted := 0
    b1_samples := [b1_init]
    b2_samples := [b2_init]
    loss_samples := [calculate_loss b1_init b2_init x y] }

/-- One iteration of the `run_simulation` loop.  `z` is the pair of standard
normal deviates drawn this step; the source perturbs `b1` with
`rng.normal(0, step_size * 5)` and `b2` with `rng.normal(0, step_size)`, i.e.
with `step_size * 5 * z.1` and `step_size * z.2`.  Both proposals are clipped
into their bounds, the proposal is accepted iff its loss is strictly smaller,
and the (possibly unchanged) state is appended to the trajectories. -/
def simStep (x y : List ℚ) (step_size : ℚ) (b1_bounds b2_bounds : ℚ × ℚ)
    (z : ℚ × ℚ) (s : SimState) : SimState :=
  let b1_new := clip (s.b1 + step_size * 5 * z.1) b1_bounds.1 b1_bounds.2
  let b2_new := clip (s.b2 + step_size * z.2) b2_bounds.1 b2_bounds.2
  let new_loss := calculate_loss b1_new b2_new x y
  if new_loss < s.loss then
    { b1 := b1_new
      b2 := b2_new
      loss := new_loss
      n_accepted := s.n_accepted + 1
      b1_samples := s.b1_samples ++ [b1_new]
      b2_samples := s.b2_samples ++ [b2_new]
      loss_samples := s.loss_samples ++ [new_loss] }
  else
    { s with
      b1_samples := s.b1_samples ++ [s.b1]
      b2_samples := s.b2_samples ++ [s.b2]
      loss_samples := s.loss_samples ++ [s.loss] }

/-- The sampling loop of `run_simulation`: starting from `initState`, apply
`simStep` once per sample, feeding it the deviate pair `rng i` at step `i`. -/
def runSimLoop (x y : List ℚ) (step_size b1_init b2_init : ℚ)
    (b1_bounds b2_bounds : ℚ × ℚ) (rng : ℕ → ℚ × ℚ) (n_samples : ℕ) : SimState :=
  (List.range n_samples).foldl
    (fun s i => simStep x y step_size b1_bounds b2_bounds (rng i) s)
    (initState x y b1_init b2_init)

/-- The dictionary returned by `run_simulation`. -/
structure SimulationResults where
  final_b1 : ℚ
  final_b2 : ℚ
  final_loss : ℚ
  acceptance_rate : ℚ
  b1_samples : List ℚ
  b2_samples : List ℚ
  loss_samples : List ℚ
  deriving DecidableEq, Repr

/-- Embedding of `MonteCarloTipsSimulation.run_simulation` with explicit
initial parameters and an injected deviate stream.  After the loop the source
evaluates `acceptance_rate = n_accepted / n_samples`, which raises
`ZeroDivisionError` in Python when `n_samples == 0`; that exception is
modelled as `Except.error`. -/
def run_simulation (x y : List ℚ) (n_samples : ℕ) (step_size b1_init b2_init : ℚ)
    (b1_bounds b2_bounds : ℚ × ℚ) (rng : ℕ → ℚ × ℚ) :
    Except String SimulationResults :=
  let s := runSimLoop x y step_size b1_init b2_init b1_bounds b2_bounds rng n_samples
  if n_samples = 0 then
    Except.error "ZeroDivisionError: division by zero"
  else
    Except.ok
      { final_b1 := s.b1
        final_b2 := s.b2
        final_loss := s.loss
        acceptance_rate := (s.n_accepted : ℚ) / (n_samples : ℚ)
        b1_samples := s.b1_samples
        b2_samples := s.b2_samples
        loss_samples := s.loss_samples }

lemma runSimLoop_zero (x y : List ℚ) (step_size b1_init b2_init : ℚ)
    (b1_bounds b2_bounds : ℚ × ℚ) (rng : ℕ → ℚ × ℚ) :
    runSimLoop x y step_size b1_init b2_init b1_bounds b2_bounds rng 0
      = initState x y b1_init b2_init := rfl

lemma runSimLoop_succ (x y : List ℚ) (step_size b1_init b2_init : ℚ)
    (b1_bounds b2_bounds : ℚ × ℚ) (rng : ℕ → ℚ × ℚ) (n : ℕ) :
    runSimLoop x y step_size b1_init b2_init b1_bounds b2_bounds rng (n + 1)
      = simStep x y step_size b1_bounds b2_bounds (rng n)
          (runSimLoop x y step_size b1_init b2_init b1_bounds b2_bounds rng n) := by
  simp [runSimLoop, List.range_succ]

lemma simStep_loss_le (x y : List ℚ) (step_size : ℚ) (b1_bounds b2_bounds : ℚ × ℚ)
    (z : ℚ × ℚ) (s : SimState) :
    (simStep x y step_size b1_bounds b2_bounds z s).loss ≤ s.loss := by
  simp only [simStep]
  split
  · exact le_of_lt (by assumption)
  · exact le_refl _

lemma simStep_loss_samples (x y : List ℚ) (step_size : ℚ) (b1_bounds b2_bounds : ℚ × ℚ)
    (z : ℚ × ℚ) (s : SimState) :
    (simStep x y step_size b1_bounds b2_bounds z s).loss_samples
      = s.loss_samples ++ [(simStep x y step_size b1_bounds b2_bounds z s).loss] := by
  simp only [simStep]
  split <;> rfl

lemma simStep_b1_samples (x y : List ℚ) (step_size : ℚ) (b1_bounds b2_bounds : ℚ × ℚ)
    (z : ℚ × ℚ) (s : SimState) :
    (simStep x y step_size b1_bounds b2_bounds z s).b1_samples
      = s.b1_samples ++ [(simStep x y step_size b1_bounds b2_bounds z s).b1] := by
  simp only [simStep]
  split <;> rfl

lemma simStep_b2_samples (x y : List ℚ) (step_size : ℚ) (b1_bounds b2_bounds : ℚ × ℚ)
    (z : ℚ × ℚ) (s : SimState) :
    (simStep x y step_size b1_bounds b2_bounds z s).b2_samples
      = s.b2_samples ++ [(simStep x y step_size b1_bounds b2_bounds z s).b2] := by
  simp only [simStep]
  split <;> rfl

lemma runSimLoop_lengths (x y : List ℚ) (step_size b1_init b2_init : ℚ)
    (b1_bounds b2_bounds : ℚ × ℚ) (rng : ℕ → ℚ × ℚ) (n : ℕ) :
    (runSimLoop x y step_size b1_init b2_init b1_bounds b2_bounds rng n).b1_samples.length
        = n + 1 ∧
      (runSimLoop x y step_size b1_init b2_init b1_bounds b2_bounds rng n).b2_samples.length
        = n + 1 ∧
      (runSimLoop x y step_size b1_init b2_init b1_bounds b2_bounds rng n).loss_samples.length
        = n + 1 := by
  induction n with
  | zero => simp [runSimLoop, initState]
  | succ n ih =>
    obtain ⟨h1, h2, h3⟩ := ih
    rw [runSimLoop_succ]
    refine ⟨?_, ?_, ?_⟩
    · rw [simStep_b1_samples]; simp [h1]
    · rw [simStep_b2_samples]; simp [h2]
    · rw [simStep_loss_samples]; simp [h3]

lemma runSimLoop_loss_inv (x y : List ℚ) (step_size b1_init b2_init : ℚ)
    (b1_bounds b2_bounds : ℚ × ℚ) (rng : ℕ → ℚ × ℚ) (n : ℕ) :
    (runSimLoop x y step_size b1_init b2_init b1_bounds b2_bounds rng n).loss_samples.getLast?
        = some (runSimLoop x y step_size b1_init b2_init b1_bounds b2_bounds rng n).loss ∧
      List.Chain' (fun a b => b ≤ a)
        (runSimLoop x y step_size b1_init b2_init b1_bounds b2_bounds rng n).loss_samples := by
  induction n with
  | zero => simp [runSimLoop, initState]
  | succ n ih =>
    obtain ⟨hlast, hchain⟩ := ih
    rw [runSimLoop_succ]
    constructor
    · rw [simStep_loss_samples, List.getLast?_concat]
    · rw [simStep_loss_samples, List.chain'_append]
      refine ⟨hchain, List.chain'_singleton _, ?_⟩
      intro a ha b hb
      simp only [List.head?_cons, Option.mem_some_iff] at hb
      rw [hlast] at ha
      simp only [Option.mem_some_iff] at ha
      subst ha; subst hb
      exact simStep_loss_le x y step_size b1_bounds b2_bounds (rng n) _

/-- C1: for every run of `run_simulation` with `n_samples ≥ 1`, the recorded
loss trajectory is non-increasing step-over-step: `loss_samples[i+1] ≤
loss_samples[i]` for every adjacent pair, because a proposal is accepted iff
its loss is strictly smaller than the current loss (ties rejected), and the
state is unchanged on reject. -/
theorem c1_loss_trajectory_nonincreasing
    (x y : List ℚ) (n_samples : ℕ) (step_size b1_init b2_init : ℚ)
    (b1_bounds b2_bounds : ℚ × ℚ) (rng : ℕ → ℚ × ℚ)
    (hn : 1 ≤ n_samples) (r : SimulationResults)
    (hr : run_simulation x y n_samples step_size b1_init b2_init b1_bounds b2_bounds rng
      = Except.ok r)
    (i : ℕ) (h1 : i < r.loss_samples.length) (h2 : i + 1 < r.loss_samples.length) :
    r.loss_samples.get ⟨i + 1, h2⟩ ≤ r.loss_samples.get ⟨i, h1⟩ := by
  unfold run_simulation at hr
  rw [if_neg (by omega)] at hr
  simp only [Except.ok.injEq] at hr
  subst hr
  dsimp only at h1 h2 ⊢
  have hchain :=
    (runSimLoop_loss_inv x y step_size b1_init b2_init b1_bounds b2_bounds rng n_samples).2
  exact List.chain'_iff_get.mp hchain i (by omega)

/-- C1 witness: a concrete one-step run (single data point, zero deviates; the
proposal ties with the current loss and is rejected) whose loss trajectory is
`[1, 1]`, with entry 1 ≤ entry 0. -/
theorem c1_witness :
    (⟨0, 0, 1, 0, [0, 0], [0, 0], [1, 1]⟩ : SimulationResults).loss_samples.get ⟨1, by decide⟩
      ≤ (⟨0, 0, 1, 0, [0, 0], [0, 0], [1, 1]⟩ : SimulationResults).loss_samples.get
          ⟨0, by decide⟩ :=
  c1_loss_trajectory_nonincreasing [1] [1] 1 (1/10000) 0 0 (0, 50) (0, 1) (fun _ => (0, 0))
    (by decide) _
    (by norm_num [run_simulation, runSimLoop, initState, simStep, clip, calculate_loss,
      List.range_succ, min_def, max_def])
    0 (by decide) (by decide)

/-- C2: every run of `run_simulation` with `n_samples ≥ 1` returns three
trajectories `b1_samples`, `b2_samples`, `loss_samples` of length exactly
`n_samples + 1` (the initial entry plus one appended entry per step, accepted
or not). -/
theorem c2_trajectory_lengths
    (x y : List ℚ) (n_samples : ℕ) (step_size b1_init b2_init : ℚ)
    (b1_bounds b2_bounds : ℚ × ℚ) (rng : ℕ → ℚ × ℚ)
    (hn : 1 ≤ n_samples) (r : SimulationResults)
    (hr : run_simulation x y n_samples step_size b1_init b2_init b1_bounds b2_bounds rng
      = Except.ok r) :
    r.b1_samples.length = n_samples + 1 ∧ r.b2_samples.length = n_samples + 1 ∧
      r.loss_samples.length = n_samples + 1 := by
  unfold run_simulation at hr
  rw [if_neg (by omega)] at hr
  simp only [Except.ok.injEq] at hr
  subst hr
  exact runSimLoop_lengths x y step_size b1_init b2_init b1_bounds b2_bounds rng n_samples

/-- C2 witness: the same concrete one-step run has all three trajectories of
length `1 + 1 = 2`. -/
theorem c2_witness :
    (⟨0, 0, 1, 0, [0, 0], [0, 0], [1, 1]⟩ : SimulationResults).b1_samples.length = 1 + 1 ∧
      (⟨0, 0, 1, 0, [0, 0], [0, 0], [1, 1]⟩ : SimulationResults).b2_samples.length = 1 + 1 ∧
      (⟨0, 0, 1, 0, [0, 0], [0, 0], [1, 1]⟩ : SimulationResults).loss_samples.length = 1 + 1 :=
  c2_trajectory_lengths [1] [1] 1 (1/10000) 0 0 (0, 50) (0, 1) (fun _ => (0, 0))
    (by decide) _
    (by norm_num [run_simulation, runSimLoop, initState, simStep, clip, calculate_loss,
      List.range_succ, min_def, max_def])

lemma clip_mem (v lo hi : ℚ) (h : lo ≤ hi) : lo ≤ clip v lo hi ∧ clip v lo hi ≤ hi := by
  unfold clip
  exact ⟨le_min (le_max_right _ _) h, min_le_right _ _⟩

lemma simStep_state_cases (x y : List ℚ) (step_size : ℚ) (b1_bounds b2_bounds : ℚ × ℚ)
    (z : ℚ × ℚ) (s : SimState)
    (h1 : b1_bounds.1 ≤ b1_bounds.2) (h2 : b2_bounds.1 ≤ b2_bounds.2) :
    ((simStep x y step_size b1_bounds b2_bounds z s).b1 = s.b1 ∧
        (simStep x y step_size b1_bounds b2_bounds z s).b2 = s.b2) ∨
      (b1_bounds.1 ≤ (simStep x y step_size b1_bounds b2_bounds z s).b1 ∧
        (simStep x y step_size b1_bounds b2_bounds z s).b1 ≤ b1_bounds.2 ∧
        b2_bounds.1 ≤ (simStep x y step_size b1_bounds b2_bounds z s).b2 ∧
        (simStep x y step_size b1_bounds b2_bounds z s).b2 ≤ b2_bounds.2) := by
  simp only [simStep]
  split
  · exact Or.inr ⟨(clip_mem _ _ _ h1).1, (clip_mem _ _ _ h1).2,
      (clip_mem _ _ _ h2).1, (clip_mem _ _ _ h2).2⟩
  · exact Or.inl ⟨rfl, rfl⟩

lemma runSimLoop_heads (x y : List ℚ) (step_size b1_init b2_init : ℚ)
    (b1_bounds b2_bounds : ℚ × ℚ) (rng : ℕ → ℚ × ℚ) (n : ℕ) :
    (runSimLoop x y step_size b1_init b2_init b1_bounds b2_bounds rng n).b1_samples.head?
        = some b1_init ∧
      (runSimLoop x y step_size b1_init b2_init b1_bounds b2_bounds rng n).b2_samples.head?
        = some b2_init := by
  induction n with
  | zero => simp [runSimLoop, initState]
  | succ n ih =>
    rw [runSimLoop_succ, simStep_b1_samples, simStep_b2_samples]
    simp [ih.1, ih.2]

lemma runSimLoop_bounds_inv (x y : List ℚ) (step_size b1_init b2_init : ℚ)
    (b1_bounds b2_bounds : ℚ × ℚ) (rng : ℕ → ℚ × ℚ)
    (h1 : b1_bounds.1 ≤ b1_bounds.2) (h2 : b2_bounds.1 ≤ b2_bounds.2) (n : ℕ) :
    (((runSimLoop x y step_size b1_init b2_init b1_bounds b2_bounds rng n).b1 = b1_init ∧
        (runSimLoop x y step_size b1_init b2_init b1_bounds b2_bounds rng n).b2 = b2_init) ∨
      (b1_bounds.1 ≤ (runSimLoop x y step_size b1_init b2_init b1_bounds b2_bounds rng n).b1 ∧
        (runSimLoop x y step_size b1_init b2_init b1_bounds b2_bounds rng n).b1 ≤ b1_bounds.2 ∧
        b2_bounds.1 ≤ (runSimLoop x y step_size b1_init b2_init b1_bounds b2_bounds rng n).b2 ∧
        (runSimLoop x y step_size b1_init b2_init b1_bounds b2_bounds rng n).b2 ≤ b2_bounds.2)) ∧
      ∀ p ∈ (runSimLoop x y step_size b1_init b2_init b1_bounds b2_bounds rng n).b1_samples.zip
          (runSimLoop x y step_size b1_init b2_init b1_bounds b2_bounds rng n).b2_samples,
        p = (b1_init, b2_init) ∨
          (b1_bounds.1 ≤ p.1 ∧ p.1 ≤ b1_bounds.2 ∧ b2_bounds.1 ≤ p.2 ∧ p.2 ≤ b2_bounds.2) := by
  induction n with
  | zero =>
    refine ⟨Or.inl ⟨rfl, rfl⟩, ?_⟩
    intro p hp
    simp only [runSimLoop_zero, initState, List.zip_cons_cons, List.zip_nil_right,
      List.mem_singleton] at hp
    exact Or.inl hp
  | succ n ih =>
    obtain ⟨hcur, hall⟩ := ih
    have hlen := runSimLoop_lengths x y step_size b1_init b2_init b1_bounds b2_bounds rng n
    rw [runSimLoop_succ]
    have hstep := simStep_state_cases x y step_size b1_bounds b2_bounds (rng n)
      (runSimLoop x y step_size b1_init b2_init b1_bounds b2_bounds rng n) h1 h2
    have hnewpair :
        ((simStep x y step_size b1_bounds b2_bounds (rng n)
            (runSimLoop x y step_size b1_init b2_init b1_bounds b2_bounds rng n)).b1,
          (simStep x y step_size b1_bounds b2_bounds (rng n)
            (runSimLoop x y step_size b1_init b2_init b1_bounds b2_bounds rng n)).b2)
            = (b1_init, b2_init) ∨
          (b1_bounds.1 ≤ (simStep x y step_size b1_bounds b2_bounds (rng n)
              (runSimLoop x y step_size b1_init b2_init b1_bounds b2_bounds rng n)).b1 ∧
            (simStep x y step_size b1_bounds b2_bounds (rng n)
              (runSimLoop x y step_size b1_init b2_init b1_bounds b2_bounds rng n)).b1
                ≤ b1_bounds.2 ∧
            b2_bounds.1 ≤ (simStep x y step_size b1_bounds b2_bounds (rng n)
              (runSimLoop x y step_size b1_init b2_init b1_bounds b2_bounds rng n)).b2 ∧
            (simStep x y step_size b1_bounds b2_bounds (rng n)
              (runSimLoop x y step_size b1_init b2_init b1_bounds b2_bounds rng n)).b2
                ≤ b2_bounds.2) := by
      rcases hstep with ⟨e1, e2⟩ | hin
      · rw [e1, e2]
        rcases hcur with ⟨c1, c2⟩ | hin
        · exact Or.inl (by rw [c1, c2])
        · exact Or.inr hin
      · exact Or.inr hin
    constructor
    · rcases hnewpair with heq | hin
      · exact Or.inl ⟨congrArg Prod.fst heq, congrArg Prod.snd heq⟩
      · exact Or.inr hin
    · intro p hp
      rw [simStep_b1_samples, simStep_b2_samples,
        List.zip_append (by rw [hlen.1, hlen.2.1])] at hp
      rcases List.mem_append.mp hp with hp | hp
      · exact hall p hp
      · simp only [List.zip_cons_cons, List.zip_nil_right, List.mem_singleton] at hp
        subst hp
        exact hnewpair

/-- C10: `run_simulation` never clips the caller-supplied initial parameters:
the first trajectory entry is exactly `(b1_init, b2_init)` (even if it lies
outside the bounds), and every trajectory entry that differs from the initial
pair was produced by an accepted clipped proposal and therefore lies inside
`b1_bounds × b2_bounds` (bounds taken as well-formed intervals). -/
theorem c10_initial_not_clipped
    (x y : List ℚ) (n_samples : ℕ) (step_size b1_init b2_init : ℚ)
    (b1_bounds b2_bounds : ℚ × ℚ) (rng : ℕ → ℚ × ℚ)
    (hb1 : b1_bounds.1 ≤ b1_bounds.2) (hb2 : b2_bounds.1 ≤ b2_bounds.2)
    (hn : 1 ≤ n_samples) (r : SimulationResults)
    (hr : run_simulation x y n_samples step_size b1_init b2_init b1_bounds b2_bounds rng
      = Except.ok r) :
    r.b1_samples.head? = some b1_init ∧ r.b2_samples.head? = some b2_init ∧
      ∀ i (hi : i < r.b1_samples.length) (hi' : i < r.b2_samples.length),
        (r.b1_samples.get ⟨i, hi⟩ = b1_init ∧ r.b2_samples.get ⟨i, hi'⟩ = b2_init) ∨
          (b1_bounds.1 ≤ r.b1_samples.get ⟨i, hi⟩ ∧ r.b1_samples.get ⟨i, hi⟩ ≤ b1_bounds.2 ∧
            b2_bounds.1 ≤ r.b2_samples.get ⟨i, hi'⟩ ∧
            r.b2_samples.get ⟨i, hi'⟩ ≤ b2_bounds.2) := by
  unfold run_simulation at hr
  rw [if_neg (by omega)] at hr
  simp only [Except.ok.injEq] at hr
  subst hr
  dsimp only
  obtain ⟨hh1, hh2⟩ :=
    runSimLoop_heads x y step_size b1_init b2_init b1_bounds b2_bounds rng n_samples
  refine ⟨hh1, hh2, ?_⟩
  intro i hi hi'
  have hall := (runSimLoop_bounds_inv x y step_size b1_init b2_init b1_bounds b2_bounds rng
    hb1 hb2 n_samples).2
  have hzl : i < ((runSimLoop x y step_size b1_init b2_init b1_bounds b2_bounds rng
      n_samples).b1_samples.zip
        (runSimLoop x y step_size b1_init b2_init b1_bounds b2_bounds rng
          n_samples).b2_samples).length := by
    rw [List.length_zip]
    omega
  have hmem := hall _ (List.get_mem _ i hzl)
  rw [List.get_zip] at hmem
  rcases hmem with heq | hin
  · exact Or.inl ⟨congrArg Prod.fst heq, congrArg Prod.snd heq⟩
  · exact Or.inr hin

/-- C10 witness: in the concrete one-step run the entry at index 0 is the
initial pair (here also inside the bounds, so the disjunction holds). -/
theorem c10_witness :
    ((⟨0, 0, 1, 0, [0, 0], [0, 0], [1, 1]⟩ : SimulationResults).b1_samples.get ⟨0, by decide⟩
          = 0 ∧
        (⟨0, 0, 1, 0, [0, 0], [0, 0], [1, 1]⟩ : SimulationResults).b2_samples.get ⟨0, by decide⟩
          = 0) ∨
      ((0 : ℚ) ≤ (⟨0, 0, 1, 0, [0, 0], [0, 0], [1, 1]⟩ :
          SimulationResults).b1_samples.get ⟨0, by decide⟩ ∧
        (⟨0, 0, 1, 0, [0, 0], [0, 0], [1, 1]⟩ :
          SimulationResults).b1_samples.get ⟨0, by decide⟩ ≤ (50 : ℚ) ∧
        (0 : ℚ) ≤ (⟨0, 0, 1, 0, [0, 0], [0, 0], [1, 1]⟩ :
          SimulationResults).b2_samples.get ⟨0, by decide⟩ ∧
        (⟨0, 0, 1, 0, [0, 0], [0, 0], [1, 1]⟩ :
          SimulationResults).b2_samples.get ⟨0, by decide⟩ ≤ (1 : ℚ)) :=
  (c10_initial_not_clipped [1] [1] 1 (1/10000) 0 0 (0, 50) (0, 1) (fun _ => (0, 0))
    (by norm_num) (by norm_num) (by decide) _
    (by norm_num [run_simulation, runSimLoop, initState, simStep, clip, calculate_loss,
      List.range_succ, min_def, max_def])).2.2 0 (by decide) (by decide)

/-- C8: calling `run_simulation` with `n_samples = 0` builds a trajectory of
length 1 holding exactly the initial loss, and the acceptance-rate computation
`0 / 0` raises a well-defined, detectable `ZeroDivisionError` (modelled as
`Except.error`) rather than silently returning an ill-defined value. -/
theorem c8_zero_samples (x y : List ℚ) (step_size b1_init b2_init : ℚ)
    (b1_bounds b2_bounds : ℚ × ℚ) (rng : ℕ → ℚ × ℚ) :
    (runSimLoop x y step_size b1_init b2_init b1_bounds b2_bounds rng 0).loss_samples
        = [calculate_loss b1_init b2_init x y] ∧
      run_simulation x y 0 step_size b1_init b2_init b1_bounds b2_bounds rng
        = Except.error "ZeroDivisionError: division by zero" :=
  ⟨rfl, rfl⟩

/-- C9: on the 3-point dataset `(3, 1), (10, 2), (25, 4)` with `b1 = 0.5` and
`b2 = 0.15`, `calculate_loss` returns exactly `0.065`
(`0.0025 + 0 + 0.0625`). -/
theorem c9_concrete_loss :
    calculate_loss (1/2) (3/20) [3, 10, 25] [1, 2, 4] = 0.065 := by
  norm_num [calculate_loss]

lemma calculate_loss_nonneg (b1 b2 : ℚ) (x y : List ℚ) :
    0 ≤ calculate_loss b1 b2 x y := by
  induction x generalizing y with
  | nil => simp [calculate_loss]
  | cons a xs ih =>
    cases y with
    | nil => simp [calculate_loss]
    | cons b ys =>
      have h := ih ys
      have h2 : 0 ≤ (b - (b1 + b2 * a)) * (b - (b1 + b2 * a)) := mul_self_nonneg _
      simp only [calculate_loss, List.zipWith_cons_cons, List.sum_cons] at h ⊢
      linarith

lemma forall_get_cons_iff (P : ℚ → ℚ → Prop) (a b : ℚ) (xs ys : List ℚ) :
    (∀ i (hx : i < (a :: xs).length) (hy : i < (b :: ys).length),
        P ((a :: xs).get ⟨i, hx⟩) ((b :: ys).get ⟨i, hy⟩))
      ↔ P a b ∧ ∀ i (hx : i < xs.length) (hy : i < ys.length),
          P (xs.get ⟨i, hx⟩) (ys.get ⟨i, hy⟩) := by
  constructor
  · intro h
    refine ⟨h 0 (by simp) (by simp), fun i hx hy => ?_⟩
    have := h (i + 1) (by simpa using Nat.succ_lt_succ hx) (by simpa using Nat.succ_lt_succ hy)
    simpa using this
  · rintro ⟨hP, h⟩ i hx hy
    cases i with
    | zero => simpa using hP
    | succ i => simpa using h i (by simpa using hx) (by simpa using hy)

/-- C3: for every dataset (`x`, `y` of equal length) and every parameter pair,
`calculate_loss` is non-negative, and it is zero iff every data point lies
exactly on the line: `y_i = b1 + b2 * x_i` for all `i`. -/
theorem c3_loss_nonneg_zero_iff (b1 b2 : ℚ) (x y : List ℚ) (hlen : x.length = y.length) :
    0 ≤ calculate_loss b1 b2 x y ∧
      (calculate_loss b1 b2 x y = 0 ↔
        ∀ i (hx : i < x.length) (hy : i < y.length),
          y.get ⟨i, hy⟩ = b1 + b2 * x.get ⟨i, hx⟩) := by
  refine ⟨calculate_loss_nonneg b1 b2 x y, ?_⟩
  induction x generalizing y with
  | nil =>
    cases y with
    | nil => simp [calculate_loss]
    | cons b ys => simp at hlen
  | cons a xs ih =>
    cases y with
    | nil => simp at hlen
    | cons b ys =>
      have hlen' : xs.length = ys.length := by simpa using hlen
      have hterm : 0 ≤ (b - (b1 + b2 * a)) * (b - (b1 + b2 * a)) := mul_self_nonneg _
      have hrest : 0 ≤ calculate_loss b1 b2 xs ys := calculate_loss_nonneg b1 b2 xs ys
      have hsplit : calculate_loss b1 b2 (a :: xs) (b :: ys)
          = (b - (b1 + b2 * a)) * (b - (b1 + b2 * a)) + calculate_loss b1 b2 xs ys := by
        simp [calculate_loss]
      rw [hsplit, add_eq_zero_iff_of_nonneg hterm hrest,
        forall_get_cons_iff (fun u v => v = b1 + b2 * u) a b xs ys, ← ih ys hlen',
        mul_self_eq_zero, sub_eq_zero]

/-- C3 witness: on the dataset `(3, 1), (10, 2), (25, 4)` with `b1 = 1` and
`b2 = 0`, the loss is positive and indeed some point is off the line, while on
the on-line targets `(3, 0.95), (10, 2), (25, 4.25)` (with `b1 = 0.5`,
`b2 = 0.15`) the loss is zero. -/
theorem c3_witness :
    0 ≤ calculate_loss (1/2) (3/20) [3, 10, 25] [19/20, 2, 17/4] ∧
      (calculate_loss (1/2) (3/20) [3, 10, 25] [19/20, 2, 17/4] = 0 ↔
        ∀ i (hx : i < ([3, 10, 25] : List ℚ).length)
          (hy : i < ([19/20, 2, 17/4] : List ℚ).length),
          ([19/20, 2, 17/4] : List ℚ).get ⟨i, hy⟩
            = 1/2 + 3/20 * ([3, 10, 25] : List ℚ).get ⟨i, hx⟩) :=
  c3_loss_nonneg_zero_iff (1/2) (3/20) [3, 10, 25] [19/20, 2, 17/4] (by decide)

/-- Embedding of `np.mean` over a rational list (`sum / length`). -/
def mean (l : List ℚ) : ℚ := l.sum / (l.length : ℚ)

/-- Population variance, i.e. `np.std(l) ** 2`: the mean of the squared
deviations from the mean. -/
def varp (l : List ℚ) : ℚ := mean (l.map (fun v => (v - mean l) * (v - mean l)))

/-- Embedding of `np.max` (the claims only apply it to nonempty datasets;
`np.max` raises on an empty array, so the `0` default is never relied on). -/
def maxList : List ℚ → ℚ
  | [] => 0
  | a :: t => t.foldl max a

/-- Embedding of `np.min` (same remark as `maxList`). -/
def minList : List ℚ → ℚ
  | [] => 0
  | a :: t => t.foldl min a

/-- Python slicing `l[::k]` with stride `k ≥ 1`: keep the head and then every
`k`-th element. -/
def takeEvery {α : Type} (k : ℕ) : List α → List α
  | [] => []
  | a :: rest => a :: takeEvery k (List.drop (k - 1) rest)
termination_by l => l.length
decreasing_by simp [List.length_drop]; omega

lemma takeEvery_one {α : Type} (l : List α) : takeEvery 1 l = l := by
  induction l using takeEvery.induct 1 with
  | case1 => rw [takeEvery]
  | case2 a rest ih =>
    rw [takeEvery]
    simp only [Nat.sub_self, List.drop_zero] at ih ⊢
    rw [ih]

lemma takeEvery_length {α : Type} (k : ℕ) (hk : 1 ≤ k) (l : List α) :
    (takeEvery k l).length = (l.length + k - 1) / k := by
  induction l using takeEvery.induct k with
  | case1 =>
    rw [takeEvery]
    simp only [List.length_nil, Nat.zero_add]
    exact (Nat.div_eq_of_lt (by omega)).symm
  | case2 a rest ih =>
    rw [takeEvery]
    simp only [List.length_cons, List.length_drop] at ih ⊢
    rw [ih]
    have hadd : (rest.length + 1 + k - 1) / k = rest.length / k + 1 := by
      have : rest.length + 1 + k - 1 = rest.length + k := by omega
      rw [this, Nat.add_div_right _ (by omega)]
    rw [hadd]
    by_cases hcase : k - 1 ≤ rest.length
    · have : rest.length - (k - 1) + k - 1 = rest.length := by omega
      rw [this]
    · have h0 : rest.length - (k - 1) = 0 := by omega
      have h1 : rest.length / k = 0 := Nat.div_eq_of_lt (by omega)
      rw [h0, h1]
      simp only [Nat.zero_add]
      exact congrArg (· + 1) (Nat.div_eq_of_lt (by omega))

lemma takeEvery_sublist {α : Type} (k : ℕ) (l : List α) :
    (takeEvery k l).Sublist l := by
  induction l using takeEvery.induct k with
  | case1 =>
    rw [takeEvery]
  | case2 a rest ih =>
    rw [takeEvery]
    exact List.Sublist.cons₂ a (ih.trans (List.drop_sublist _ _))

/-- Scene fragment produced by `_add_optimization_trace`: the subsampled
path trace plus the explicit start and end markers (taken from the first and
last original trajectory entries). -/
structure OptimizationTrace where
  path_b1 : List ℚ
  path_b2 : List ℚ
  path_loss : List ℚ
  start_b1 : Option ℚ
  start_b2 : Option ℚ
  start_loss : Option ℚ
  end_b1 : Option ℚ
  end_b2 : Option ℚ
  end_loss : Option ℚ
  deriving DecidableEq, Repr

/-- Embedding of `LinearRegressionSSEVisualizer._add_optimization_trace`:
`step = max(1, len(bias_samples) // 1000)`, each trajectory is subsampled as
`samples[::step]`, and the start/end markers use `samples[0]` / `samples[-1]`
(modelled with `head?` / `getLast?`; Python raises on an empty trajectory). -/
def _add_optimization_trace (bias_samples slope_samples loss_samples : List ℚ) :
    OptimizationTrace :=
  let step := max 1 (bias_samples.length / 1000)
  { path_b1 := takeEvery step bias_samples
    path_b2 := takeEvery step slope_samples
    path_loss := takeEvery step loss_samples
    start_b1 := bias_samples.head?
    start_b2 := slope_samples.head?
    start_loss := loss_samples.head?
    end_b1 := bias_samples.getLast?
    end_b2 := slope_samples.getLast?
    end_loss := loss_samples.getLast? }

/-- C4 counterexample: for a trajectory of length 1001 the stride is
`max(1, 1001 // 1000) = 1`, so the emitted path keeps all 1001 points —
strictly more than the 1000 points the claim allows. -/
theorem c4_counterexample :
    ¬ ((_add_optimization_trace (List.replicate 1001 0) (List.replicate 1001 0)
        (List.replicate 1001 0)).path_b1.length ≤ 1000) := by
  have hlen1001 : (List.replicate 1001 (0 : ℚ)).length = 1001 :=
    List.length_replicate 1001 0
  have hstep : max 1 ((List.replicate 1001 (0 : ℚ)).length / 1000) = 1 := by
    rw [hlen1001]
    omega
  have h : (_add_optimization_trace (List.replicate 1001 0) (List.replicate 1001 0)
      (List.replicate 1001 0)).path_b1 = takeEvery 1 (List.replicate 1001 (0 : ℚ)) := by
    dsimp only [_add_optimization_trace]
    rw [hstep]
  rw [h, takeEvery_one, hlen1001]
  omega

/-- C4 (amended): for a trajectory of length `L ≥ 1` the path layer is each
trajectory subsampled with uniform stride `max(1, L / 1000)` (integer
division), never reordering points (it is a sublist), with exactly
`⌈L / stride⌉` points — at most 1999, not 1000 (for `1001 ≤ L ≤ 1999` the
stride is 1 and all points are kept); for `L = 5000` the stride is 5 and the
path has exactly 1000 points; the first and last original trajectory points
are always included as the explicit start/end markers. -/
theorem c4_subsampled_path (bias_samples slope_samples loss_samples : List ℚ)
    (hlen : 1 ≤ bias_samples.length) :
    (_add_optimization_trace bias_samples slope_samples loss_samples).path_b1
        = takeEvery (max 1 (bias_samples.length / 1000)) bias_samples ∧
      (_add_optimization_trace bias_samples slope_samples loss_samples).path_b2
        = takeEvery (max 1 (bias_samples.length / 1000)) slope_samples ∧
      (_add_optimization_trace bias_samples slope_samples loss_samples).path_loss
        = takeEvery (max 1 (bias_samples.length / 1000)) loss_samples ∧
      (_add_optimization_trace bias_samples slope_samples
        loss_samples).path_b1.Sublist bias_samples ∧
      (_add_optimization_trace bias_samples slope_samples loss_samples).path_b1.length
        = (bias_samples.length + max 1 (bias_samples.length / 1000) - 1)
            / max 1 (bias_samples.length / 1000) ∧
      (_add_optimization_trace bias_samples slope_samples loss_samples).path_b1.length
        ≤ 1999 ∧
      (bias_samples.length = 5000 →
        max 1 (bias_samples.length / 1000) = 5 ∧
          (_add_optimization_trace bias_samples slope_samples
            loss_samples).path_b1.length = 1000) ∧
      (_add_optimization_trace bias_samples slope_samples loss_samples).start_b1
        = bias_samples.head? ∧
      (_add_optimization_trace bias_samples slope_samples loss_samples).end_b1
        = bias_samples.getLast? := by
  have hk : 1 ≤ max 1 (bias_samples.length / 1000) := le_max_left _ _
  have hlength : (_add_optimization_trace bias_samples slope_samples
      loss_samples).path_b1.length
      = (bias_samples.length + max 1 (bias_samples.length / 1000) - 1)
          / max 1 (bias_samples.length / 1000) := by
    simp only [_add_optimization_trace]
    exact takeEvery_length _ hk _
  have hbound : (_add_optimization_trace bias_samples slope_samples
      loss_samples).path_b1.length ≤ 1999 := by
    rw [hlength]
    have key : bias_samples.length ≤ 1999 * max 1 (bias_samples.length / 1000) := by
      by_cases hcase : bias_samples.length / 1000 ≤ 1
      · have hst : max 1 (bias_samples.length / 1000) = 1 := by omega
        rw [hst]
        omega
      · have hst : max 1 (bias_samples.length / 1000) = bias_samples.length / 1000 := by
          omega
        rw [hst]
        omega
    rw [Nat.div_le_iff_le_mul_add_pred (by omega)]
    omega
  refine ⟨rfl, rfl, rfl, ?_, hlength, hbound, ?_, rfl, rfl⟩
  · simp only [_add_optimization_trace]
    exact takeEvery_sublist _ _
  · intro h5000
    have hst : max 1 (bias_samples.length / 1000) = 5 := by omega
    refine ⟨hst, ?_⟩
    rw [hlength, hst, h5000]

/-- C4 witness: a concrete length-3 trajectory; stride 1, the path keeps all
3 = ⌈3/1⌉ points in order, and start/end markers are the first and last
entries. -/
theorem c4_witness :
    (_add_optimization_trace [1, 2, 3] [4, 5, 6] [7, 8, 9]).path_b1
        = takeEvery (max 1 (([1, 2, 3] : List ℚ).length / 1000)) [1, 2, 3] ∧
      (_add_optimization_trace [1, 2, 3] [4, 5, 6] [7, 8, 9]).path_b2
        = takeEvery (max 1 (([1, 2, 3] : List ℚ).length / 1000)) [4, 5, 6] ∧
      (_add_optimization_trace [1, 2, 3] [4, 5, 6] [7, 8, 9]).path_loss
        = takeEvery (max 1 (([1, 2, 3] : List ℚ).length / 1000)) [7, 8, 9] ∧
      (_add_optimization_trace [1, 2, 3] [4, 5, 6] [7, 8, 9]).path_b1.Sublist
        ([1, 2, 3] : List ℚ) ∧
      (_add_optimization_trace [1, 2, 3] [4, 5, 6] [7, 8, 9]).path_b1.length
        = (([1, 2, 3] : List ℚ).length + max 1 (([1, 2, 3] : List ℚ).length / 1000) - 1)
            / max 1 (([1, 2, 3] : List ℚ).length / 1000) ∧
      (_add_optimization_trace [1, 2, 3] [4, 5, 6] [7, 8, 9]).path_b1.length ≤ 1999 ∧
      (([1, 2, 3] : List ℚ).length = 5000 →
        max 1 (([1, 2, 3] : List ℚ).length / 1000) = 5 ∧
          (_add_optimization_trace [1, 2, 3] [4, 5, 6] [7, 8, 9]).path_b1.length = 1000) ∧
      (_add_optimization_trace [1, 2, 3] [4, 5, 6] [7, 8, 9]).start_b1
        = ([1, 2, 3] : List ℚ).head? ∧
      (_add_optimization_trace [1, 2, 3] [4, 5, 6] [7, 8, 9]).end_b1
        = ([1, 2, 3] : List ℚ).getLast? :=
  c4_subsampled_path [1, 2, 3] [4, 5, 6] [7, 8, 9] (by decide)

/-- State of `LinearRegressionSSEVisualizer` after `__init__`: the (possibly
standardized) data, the (possibly adjusted) true parameters, and the true SSE
computed when both true parameters are present. -/
structure LinearRegressionSSEVisualizer where
  x_data : List ℚ
  y_data : List ℚ
  true_bias : Option ℚ
  true_slope : Option ℚ
  true_sse : Option ℚ
  deriving DecidableEq, Repr

/-- Embedding of `LinearRegressionSSEVisualizer._calculate_sse`: the sum of
squared residuals of the stored dataset against the line `bias + slope * x`
(`residuals**2` written as `r * r` for kernel computability). -/
def _calculate_sse (v : LinearRegressionSSEVisualizer) (bias slope : ℚ) : ℚ :=
  (List.zipWith (fun xi yi => (yi - (bias + slope * xi)) * (yi - (bias + slope * xi)))
    v.x_data v.y_data).sum

/-- Embedding of `LinearRegressionSSEVisualizer.__init__`.  `x_std` and
`y_std` are the values `np.std(x_data)` and `np.std(y_data)` (a square root,
so injected as parameters and pinned down in the theorems by
`x_std * x_std = varp x_data`, `0 ≤ x_std`, and likewise for `y`); they are
only read when `standardize` is true.  When standardizing, the data is
affinely rescaled and — only when both true parameters are supplied — the
true parameters are re-expressed in standardized coordinates.  `true_sse` is
computed whenever both (possibly adjusted) true parameters are present. -/
def visualizerInit (x_data y_data : List ℚ) (true_bias true_slope : Option ℚ)
    (standardize : Bool) (x_std y_std : ℚ) : LinearRegressionSSEVisualizer :=
  if standardize then
    let x_mean := mean x_data
    let y_mean := mean y_data
    let x_scaled := x_data.map (fun v => (v - x_mean) / x_std)
    let y_scaled := y_data.map (fun v => (v - y_mean) / y_std)
    let adjusted : Option ℚ × Option ℚ :=
      match true_bias, true_slope with
      | some b, some s =>
        (some ((b + s * x_mean - y_mean) / y_std), some (s * (x_std / y_std)))
      | b, s => (b, s)
    let v0 : LinearRegressionSSEVisualizer :=
      { x_data := x_scaled, y_data := y_scaled, true_bias := adjusted.1,
        true_slope := adjusted.2, true_sse := none }
    { v0 with true_sse :=
        match adjusted.1, adjusted.2 with
        | some b, some s => some (_calculate_sse v0 b s)
        | _, _ => none }
  else
    let v0 : LinearRegressionSSEVisualizer :=
      { x_data := x_data, y_data := y_data, true_bias := true_bias,
        true_slope := true_slope, true_sse := none }
    { v0 with true_sse :=
        match true_bias, true_slope with
        | some b, some s => some (_calculate_sse v0 b s)
        | _, _ => none }

/-- The bias-range center used by `calculate_sse_surface` auto-detection:
the true bias if known, otherwise the mean of the targets. -/
def biasCenter (v : LinearRegressionSSEVisualizer) : ℚ :=
  match v.true_bias with
  | some b => b
  | none => mean v.y_data

/-- The slope-range center used by `calculate_sse_surface` auto-detection:
the true slope if known, otherwise the data-driven heuristic
`(max y - min y) / (max x - min x)`. -/
def slopeCenter (v : LinearRegressionSSEVisualizer) : ℚ :=
  match v.true_slope with
  | some s => s
  | none => (maxList v.y_data - minList v.y_data) / (maxList v.x_data - minList v.x_data)

/-- The range-resolution prelude of `calculate_sse_surface` (the auto-detect
block plus the two asserts), with the source's control-flow faults preserved:
the local `scope` is assigned only inside the `bias_range is None` block but
read unconditionally by the `slope_range is None` block (an
`UnboundLocalError` when only `bias_range` is supplied), and `bias_range` is
assigned only inside the `slope_range is None` block, so the subsequent
`assert bias_range is not None` fails when only `slope_range` is supplied. -/
def resolveRanges (v : LinearRegressionSSEVisualizer)
    (bias_range slope_range : Option (ℚ × ℚ)) (scale_factor : ℚ) :
    Except String ((ℚ × ℚ) × (ℚ × ℚ)) :=
  match slope_range with
  | some sr =>
    match bias_range with
    | some br => Except.ok (br, sr)
    | none => Except.error "AssertionError: bias_range is not None"
  | none =>
    match bias_range with
    | some _ => Except.error "UnboundLocalError: scope"
    | none =>
      let scope := |biasCenter v| * scale_factor
      let slope_scope := |slopeCenter v| * scale_factor
      let scope := max scope slope_scope
      Except.ok
        ((biasCenter v - scope, biasCenter v + scope),
         (slopeCenter v - scope, slopeCenter v + scope))

/-- Embedding of `np.linspace(a, b, n)`: `n` points `a + i * (b - a)/(n - 1)`
(for `n = 1` the single point is `a`, matching numpy). -/
def linspace (a b : ℚ) (n : ℕ) : List ℚ :=
  (List.range n).map (fun i => a + (i : ℚ) * ((b - a) / ((n : ℚ) - 1)))

/-- The three meshes returned by `calculate_sse_surface`
(`np.meshgrid(bias_vals, slope_vals)` plus the SSE grid): row `i` corresponds
to `slope_vals[i]` and column `j` to `bias_vals[j]`. -/
structure SurfaceResult where
  bias_mesh : List (List ℚ)
  slope_mesh : List (List ℚ)
  sse_mesh : List (List ℚ)
  deriving DecidableEq, Repr

/-- Embedding of `LinearRegressionSSEVisualizer.calculate_sse_surface`:
resolve the parameter ranges (faithfully reproducing the source's failures
when exactly one range is supplied), then evaluate the SSE on the
`resolution × resolution` grid `sse_mesh[i][j] =
_calculate_sse(bias_vals[j], slope_vals[i])`. -/
def calculate_sse_surface (v : LinearRegressionSSEVisualizer)
    (bias_range slope_range : Option (ℚ × ℚ)) (resolution : ℕ)
    (scale_factor : ℚ) : Except String SurfaceResult :=
  match resolveRanges v bias_range slope_range scale_factor with
  | Except.error e => Except.error e
  | Except.ok (br, sr) =>
    let bias_vals := linspace br.1 br.2 resolution
    let slope_vals := linspace sr.1 sr.2 resolution
    Except.ok
      { bias_mesh := slope_vals.map (fun _ => bias_vals)
        slope_mesh := slope_vals.map (fun sv => bias_vals.map (fun _ => sv))
        sse_mesh := slope_vals.map (fun sv => bias_vals.map (fun bv => _calculate_sse v bv sv)) }

/-- C5: `calculate_sse_surface` does NOT terminate normally for every
combination of supplied/omitted ranges: on a well-formed dataset with two
distinct feature values, supplying only `bias_range` hits the unassigned
local `scope` (`UnboundLocalError`) and supplying only `slope_range` trips
`assert bias_range is not None`, while the claim says all four combinations
return three N×N meshes.  Evaluated here at a concrete failing input. -/
theorem c5_single_range_crash :
    calculate_sse_surface ⟨[0, 1], [0, 1], none, none, none⟩ (some (0, 1)) none 5 3
        = Except.error "UnboundLocalError: scope" ∧
      calculate_sse_surface ⟨[0, 1], [0, 1], none, none, none⟩ none (some (0, 1)) 5 3
        = Except.error "AssertionError: bias_range is not None" :=
  ⟨rfl, rfl⟩

/-- C6: when neither range is supplied, each candidate half-width is
`|center| * scale_factor` and the wider of the two is applied symmetrically
to BOTH parameters: the resolved ranges are `center ± w` around each center
with the common `w = max(|bias_center|, |slope_center|) * scale_factor`. -/
theorem c6_auto_range_common_width (v : LinearRegressionSSEVisualizer)
    (scale_factor : ℚ) (hsf : 0 ≤ scale_factor) :
    resolveRanges v none none scale_factor
      = Except.ok
          ((biasCenter v - max |biasCenter v| |slopeCenter v| * scale_factor,
            biasCenter v + max |biasCenter v| |slopeCenter v| * scale_factor),
           (slopeCenter v - max |biasCenter v| |slopeCenter v| * scale_factor,
            slopeCenter v + max |biasCenter v| |slopeCenter v| * scale_factor)) := by
  have hmax : max (|biasCenter v| * scale_factor) (|slopeCenter v| * scale_factor)
      = max |biasCenter v| |slopeCenter v| * scale_factor :=
    (max_mul_of_nonneg _ _ hsf).symm
  dsimp only [resolveRanges]
  rw [hmax]

/-- C6 witness: dataset `x = [0, 2]`, `y = [0, 4]`, no true parameters,
`scale_factor = 3`: both centers are 2, the common half-width is 6, and both
resolved ranges are `(-4, 8)`. -/
theorem c6_witness :
    resolveRanges ⟨[0, 2], [0, 4], none, none, none⟩ none none 3
      = Except.ok (((-4 : ℚ), (8 : ℚ)), ((-4 : ℚ), (8 : ℚ))) := by
  rw [c6_auto_range_common_width ⟨[0, 2], [0, 4], none, none, none⟩ 3 (by norm_num)]
  norm_num [biasCenter, slopeCenter, mean, maxList, minList]

lemma sse_scale_aux (b1 b2 x_mean y_mean x_std y_std : ℚ)
    (hx0 : x_std ≠ 0) (hy0 : y_std ≠ 0) (x y : List ℚ) :
    (List.zipWith
        (fun xi yi =>
          (yi - ((b1 + b2 * x_mean - y_mean) / y_std + b2 * (x_std / y_std) * xi))
            * (yi - ((b1 + b2 * x_mean - y_mean) / y_std + b2 * (x_std / y_std) * xi)))
        (x.map (fun v => (v - x_mean) / x_std))
        (y.map (fun v => (v - y_mean) / y_std))).sum * (y_std * y_std)
      = (List.zipWith (fun xi yi => (yi - (b1 + b2 * xi)) * (yi - (b1 + b2 * xi))) x y).sum := by
  induction x generalizing y with
  | nil => simp
  | cons a xs ih =>
    cases y with
    | nil => simp
    | cons b ys =>
      simp only [List.map_cons, List.zipWith_cons_cons, List.sum_cons, add_mul]
      rw [ih ys]
      congr 1
      field_simp
      ring

/-- C7: standardization round-trip.  For a dataset whose feature and target
standard deviations (`x_std`, `y_std`, pinned by `std * std = varp` and
`0 ≤ std`) are non-zero and with both true parameters supplied, constructing
the visualizer with `standardize = True` rescales the data to zero mean and
unit variance and transforms the true parameters; the `true_sse` it computes
on the standardized data at the transformed parameters, mapped back through
the inverse affine transform (multiplied by the target variance), equals the
SSE computed on the original unstandardized data at the original true
parameters — exactly, in the rational model. -/
theorem c7_standardization_round_trip (x y : List ℚ) (b1 b2 x_std y_std : ℚ)
    (hxvar : x_std * x_std = varp x) (hyvar : y_std * y_std = varp y)
    (hxnn : 0 ≤ x_std) (hynn : 0 ≤ y_std) (hx0 : x_std ≠ 0) (hy0 : y_std ≠ 0) :
    (visualizerInit x y (some b1) (some b2) true x_std y_std).true_sse.isSome = true ∧
      (visualizerInit x y (some b1) (some b2) true x_std y_std).true_sse.getD 0 * varp y
        = _calculate_sse (visualizerInit x y (some b1) (some b2) false x_std y_std) b1 b2 := by
  constructor
  · rfl
  · rw [← hyvar]
    simpa only [visualizerInit, _calculate_sse, Option.getD_some]
      using sse_scale_aux b1 b2 (mean x) (mean y) x_std y_std hx0 hy0 x y

/-- C7 witness: `x = [0, 2]` (mean 1, variance 1), `y = [0, 4]` (mean 2,
variance 4), true parameters `b1 = b2 = 1`, `x_std = 1`, `y_std = 2`. -/
theorem c7_witness :
    (visualizerInit [0, 2] [0, 4] (some 1) (some 1) true 1 2).true_sse.isSome = true ∧
      (visualizerInit [0, 2] [0, 4] (some 1) (some 1) true 1 2).true_sse.getD 0
          * varp [0, 4]
        = _calculate_sse (visualizerInit [0, 2] [0, 4] (some 1) (some 1) false 1 2) 1 1 :=
  c7_standardization_round_trip [0, 2] [0, 4] 1 1 1 2
    (by norm_num [varp, mean]) (by norm_num [varp, mean])
    (by norm_num) (by norm_num) (by norm_num) (by norm_num)

end MLCourses
